import Mathlib

/-!
Verification of the Route admission validation of this repository
(`pkg/apis/serving/v1alpha1/route_validation.go`).

The structured-error value (`apis.FieldError` of the collaborating `apis`
package), the qualified-name syntax checker, the deprecated-field
compatibility check and the object-metadata validator are not part of the
source tree; they are modelled from the specification (spec sections 4.1, 6
and 7).  The three validators `Route.Validate`, `RouteSpec.Validate` and
`TrafficTarget.Validate` are translated directly from the Go source.
-/

/-- Modelled from the spec: the validation-outcome taxonomy of spec section 7
(the `apis` error constructors are outside the source tree, so each kind of
finding is tagged explicitly). -/
inductive ErrKind where
  | MissingField
  | MultipleOneOf
  | MissingOneOf
  | InvalidKeyName
  | OutOfBoundsValue
  | DisallowedFields
  | DuplicateDefinition
  | SumMismatch
deriving DecidableEq

/-- Modelled from the spec: one finding of the Structured Error Model — a
message, the field paths it applies to, and attached sub-violation details
(spec section 4.1). -/
structure Finding where
  kind : ErrKind
  message : String
  paths : List String
  details : List String
deriving DecidableEq

/-- Modelled from the spec: a structured error is absent (the empty list,
Go `nil`) or a present ordered collection of findings; `merge` (Go `Also`)
is order-preserving concatenation (spec section 4.1). -/
abbrev FieldError := List Finding

/-- Modelled from the spec: path-rewriting used by `ViaField`; the empty
path (`apis.CurrentField`) is replaced by the new segment, any other path
gets the segment prepended with a dot. -/
def joinPath (p s : String) : String := if s = "" then p else p ++ "." ++ s

/-- Modelled from the spec: `ViaField` / `ViaFieldIndex` rewrite every path
of every finding by prepending the containing field segment. -/
def viaField (p : String) (e : FieldError) : FieldError :=
  e.map fun f => ⟨f.kind, f.message, f.paths.map (joinPath p), f.details⟩

def quoteStr (s : String) : String := "\"" ++ s ++ "\""

/-- Modelled from the spec: `apis.ErrMissingField`. -/
def ErrMissingField (f : String) : FieldError :=
  [⟨ErrKind.MissingField, "missing field(s)", [f], []⟩]

/-- Modelled from the spec: `apis.ErrMultipleOneOf`. -/
def ErrMultipleOneOf (a b : String) : FieldError :=
  [⟨ErrKind.MultipleOneOf, "expected exactly one, got both", [a, b], []⟩]

/-- Modelled from the spec: `apis.ErrMissingOneOf`. -/
def ErrMissingOneOf (a b : String) : FieldError :=
  [⟨ErrKind.MissingOneOf, "expected exactly one, got neither", [a, b], []⟩]

/-- Modelled from the spec: `apis.ErrInvalidKeyName`, carrying the syntax
checker violations as details. -/
def ErrInvalidKeyName (v f : String) (details : List String) : FieldError :=
  [⟨ErrKind.InvalidKeyName, "invalid key name " ++ quoteStr v, [f], details⟩]

/-- Modelled from the spec: `apis.ErrOutOfBoundsValue`, carrying the allowed
bounds and the offending value in the message. -/
def ErrOutOfBoundsValue (v lower upper : Int) (f : String) : FieldError :=
  [⟨ErrKind.OutOfBoundsValue,
    "expected " ++ toString lower ++ " <= " ++ toString v ++ " <= " ++ toString upper,
    [f], []⟩]

/-- Modelled from the spec: `apis.ErrDisallowedFields`. -/
def ErrDisallowedFields (f : String) : FieldError :=
  [⟨ErrKind.DisallowedFields, "must not set the field(s)", [f], []⟩]

/-- One weighted traffic target (`TrafficTarget` of the v1alpha1 API), with
the fields read by its validator. -/
structure TrafficTarget where
  name : String
  revisionName : String
  configurationName : String
  percent : Int
  url : String
deriving DecidableEq

/-- The route spec (`RouteSpec`): the deprecated generation scalar and the
ordered traffic-target sequence. -/
structure RouteSpec where
  deprecatedGeneration : Int
  traffic : List TrafficTarget
deriving DecidableEq

/-- The zero-valued spec `&RouteSpec\x7b\x7d` used by the deep-equality
empty-spec sentinel. -/
def zeroRouteSpec : RouteSpec := ⟨0, []⟩

/-- The route resource; object metadata is opaque to this core, so only the
spec is carried and the metadata validator result is a parameter. -/
structure Route where
  spec : RouteSpec
deriving DecidableEq

/-- Translation of `TrafficTarget.Validate` (route_validation.go lines
84-107); `iqn` is the external qualified-name syntax checker
`validation.IsQualifiedName`, returning the (possibly empty) violation
list. -/
def TrafficTarget.Validate (iqn : String → List String) (tt : TrafficTarget) : FieldError :=
  let errs :=
    if tt.revisionName ≠ "" ∧ tt.configurationName ≠ "" then
      ErrMultipleOneOf "revisionName" "configurationName"
    else if tt.revisionName ≠ "" then
      if iqn tt.revisionName ≠ [] then
        ErrInvalidKeyName tt.revisionName "revisionName" (iqn tt.revisionName)
      else []
    else if tt.configurationName ≠ "" then
      if iqn tt.configurationName ≠ [] then
        ErrInvalidKeyName tt.configurationName "configurationName" (iqn tt.configurationName)
      else []
    else
      ErrMissingOneOf "revisionName" "configurationName"
  let errs :=
    if tt.percent < 0 ∨ tt.percent > 100 then
      errs ++ ErrOutOfBoundsValue tt.percent 0 100 "percent"
    else errs
  if tt.url ≠ "" then errs ++ ErrDisallowedFields "url" else errs

/-- The `traffic[i]` path segment used by `ViaFieldIndex("traffic", i)`. -/
def trafficIdx (i : Nat) : String := "traffic[" ++ toString i ++ "]"

/-- The message `fmt.Sprintf("Multiple definitions for %q", name)`. -/
def dupMsg (n : String) : String := "Multiple definitions for " ++ quoteStr n

/-- The duplicate-definition finding built inline in `RouteSpec.Validate`
(lines 64-71): first occurrence index `j`, repeat index `i`. -/
def dupFinding (n : String) (j i : Nat) : Finding :=
  ⟨ErrKind.DuplicateDefinition, dupMsg n,
   [trafficIdx j ++ ".name", trafficIdx i ++ ".name"], []⟩

def dupErr (n : String) (j i : Nat) : FieldError := [dupFinding n j i]

/-- The sum-mismatch finding built inline in `RouteSpec.Validate` (lines
74-79): `fmt.Sprintf("Traffic targets sum to %d, want 100", percentSum)`
at path `traffic`. -/
def sumErr (s : Int) : FieldError :=
  [⟨ErrKind.SumMismatch, "Traffic targets sum to " ++ toString s ++ ", want 100",
    ["traffic"], []⟩]

/-- Lookup in the name-to-first-index mapping (`trafficMap`); entries are
only ever inserted for names not yet present, so an association list with
first-match lookup models the Go map exactly. -/
def lookupName : List (String × Nat) → String → Option Nat
  | [], _ => none
  | (k, v) :: rest, n => if k = n then some v else lookupName rest n

/-- The for-loop of `RouteSpec.Validate` (lines 48-72): index `i`,
accumulated errors, running `percentSum` and the `trafficMap`, returning
the final errors and sum. -/
def routeLoop (iqn : String → List String) :
    Nat → FieldError → Int → List (String × Nat) → List TrafficTarget → FieldError × Int
  | _, errs, s, _, [] => (errs, s)
  | i, errs, s, m, tt :: rest =>
    let errs := errs ++ viaField (trafficIdx i) (TrafficTarget.Validate iqn tt)
    let s := s + tt.percent
    if tt.name = "" then
      routeLoop iqn (i + 1) errs s m rest
    else
      match lookupName m tt.name with
      | none => routeLoop iqn (i + 1) errs s (m ++ [(tt.name, i)]) rest
      | some ent => routeLoop iqn (i + 1) (errs ++ dupErr tt.name ent i) s m rest

/-- Translation of `RouteSpec.Validate` (lines 36-81); `cd` is the external
deprecated-field compatibility check `CheckDeprecated`, applied to the
deprecated generation value and merged in as-is (spec section 4.3 step 2). -/
def RouteSpec.Validate (iqn : String → List String) (cd : Int → FieldError)
    (rs : RouteSpec) : FieldError :=
  if rs = zeroRouteSpec then ErrMissingField "" else
  let errs := cd rs.deprecatedGeneration
  let r := routeLoop iqn 0 errs 0 [] rs.traffic
  if r.2 ≠ 100 then r.1 ++ sumErr r.2 else r.1

/-- Translation of `Route.Validate` (lines 29-33); `vmeta` is the external
object-metadata validator result `ValidateObjectMetadata(r.GetObjectMeta())`. -/
def Route.Validate (vmeta : FieldError) (iqn : String → List String)
    (cd : Int → FieldError) (r : Route) : FieldError :=
  viaField "metadata" vmeta ++ viaField "spec" (RouteSpec.Validate iqn cd r.spec)

/-! Helper functions used to state and prove the claims. -/

/-- The sum of the `percent` fields, as accumulated by the loop. -/
def sumPercents : List TrafficTarget → Int
  | [] => 0
  | tt :: rest => tt.percent + sumPercents rest

/-- The errors contributed by the traversal loop alone, starting at index
`i` with name map `m` (the loop accumulator stripped off). -/
def loopErrs (iqn : String → List String) : Nat → List (String × Nat) → List TrafficTarget → FieldError
  | _, _, [] => []
  | i, m, tt :: rest =>
    viaField (trafficIdx i) (TrafficTarget.Validate iqn tt) ++
      (if tt.name = "" then loopErrs iqn (i + 1) m rest
       else
         match lookupName m tt.name with
         | none => loopErrs iqn (i + 1) (m ++ [(tt.name, i)]) rest
         | some ent => dupErr tt.name ent i ++ loopErrs iqn (i + 1) m rest)

/-- Absolute indices (counting from `i`) of the targets named `n`. -/
def occsFrom (n : String) : Nat → List TrafficTarget → List Nat
  | _, [] => []
  | i, tt :: rest =>
    if tt.name = n then i :: occsFrom n (i + 1) rest else occsFrom n (i + 1) rest

def isSumKind (f : Finding) : Bool :=
  match f.kind with
  | ErrKind.SumMismatch => true
  | _ => false

def isOobKind (f : Finding) : Bool :=
  match f.kind with
  | ErrKind.OutOfBoundsValue => true
  | _ => false

def isDisKind (f : Finding) : Bool :=
  match f.kind with
  | ErrKind.DisallowedFields => true
  | _ => false

def isSelKind (f : Finding) : Bool :=
  match f.kind with
  | ErrKind.MultipleOneOf => true
  | ErrKind.MissingOneOf => true
  | ErrKind.InvalidKeyName => true
  | _ => false

def isDupFor (n : String) (f : Finding) : Bool :=
  match f.kind with
  | ErrKind.DuplicateDefinition => decide (f.message = dupMsg n)
  | _ => false

lemma mem_validate_kind (iqn : String → List String) (tt : TrafficTarget) :
    ∀ f ∈ TrafficTarget.Validate iqn tt,
      f.kind = ErrKind.MultipleOneOf ∨ f.kind = ErrKind.MissingOneOf ∨
      f.kind = ErrKind.InvalidKeyName ∨ f.kind = ErrKind.OutOfBoundsValue ∨
      f.kind = ErrKind.DisallowedFields := by
  intro f hf
  simp only [TrafficTarget.Validate] at hf
  split_ifs at hf <;>
    simp only [ErrMultipleOneOf, ErrMissingOneOf, ErrInvalidKeyName, ErrOutOfBoundsValue,
      ErrDisallowedFields, List.mem_append, List.mem_singleton, List.not_mem_nil,
      or_false, false_or] at hf <;>
    aesop

lemma routeLoop_eq (iqn : String → List String) :
    ∀ (ts : List TrafficTarget) (i : Nat) (errs : FieldError) (s : Int)
      (m : List (String × Nat)),
      routeLoop iqn i errs s m ts = (errs ++ loopErrs iqn i m ts, s + sumPercents ts) := by
  intro ts
  induction ts with
  | nil => intro i errs s m; simp [routeLoop, loopErrs, sumPercents]
  | cons tt rest ih =>
    intro i errs s m
    by_cases hname : tt.name = ""
    · simp [routeLoop, loopErrs, sumPercents, hname, ih, List.append_assoc, add_assoc]
    · cases hl : lookupName m tt.name with
      | none =>
        simp [routeLoop, loopErrs, sumPercents, hname, hl, ih, List.append_assoc, add_assoc]
      | some ent =>
        simp [routeLoop, loopErrs, sumPercents, hname, hl, ih, List.append_assoc, add_assoc]

/-! Claims about the Target Validator. -/

/-- C3: the destination-selector check of the Target Validator is a 4-way
exclusive choice: both references set yields a MultipleOneOf error on both
field paths; neither set yields a MissingOneOf error on both field paths;
exactly one set yields an InvalidKeyName error on that field, carrying the
syntax checker's violations, exactly when the checker's violation list is
non-empty; at most one of the four outcomes is produced. -/
theorem C3_selector_four_way (iqn : String → List String) (tt : TrafficTarget) :
    (TrafficTarget.Validate iqn tt).filter isSelKind =
      (if tt.revisionName ≠ "" ∧ tt.configurationName ≠ "" then
        ErrMultipleOneOf "revisionName" "configurationName"
      else if tt.revisionName = "" ∧ tt.configurationName = "" then
        ErrMissingOneOf "revisionName" "configurationName"
      else if tt.revisionName ≠ "" then
        (if iqn tt.revisionName = [] then []
         else ErrInvalidKeyName tt.revisionName "revisionName" (iqn tt.revisionName))
      else
        (if iqn tt.configurationName = [] then []
         else ErrInvalidKeyName tt.configurationName "configurationName" (iqn tt.configurationName))) ∧
    ((TrafficTarget.Validate iqn tt).filter isSelKind).length ≤ 1 := by
  have h : (TrafficTarget.Validate iqn tt).filter isSelKind =
      (if tt.revisionName ≠ "" ∧ tt.configurationName ≠ "" then
        ErrMultipleOneOf "revisionName" "configurationName"
      else if tt.revisionName = "" ∧ tt.configurationName = "" then
        ErrMissingOneOf "revisionName" "configurationName"
      else if tt.revisionName ≠ "" then
        (if iqn tt.revisionName = [] then []
         else ErrInvalidKeyName tt.revisionName "revisionName" (iqn tt.revisionName))
      else
        (if iqn tt.configurationName = [] then []
         else ErrInvalidKeyName tt.configurationName "configurationName" (iqn tt.configurationName))) := by
    simp only [TrafficTarget.Validate]
    split_ifs <;>
      simp_all [List.filter_append, isSelKind, ErrMultipleOneOf, ErrMissingOneOf,
        ErrInvalidKeyName, ErrOutOfBoundsValue, ErrDisallowedFields, List.filter]
  refine ⟨h, ?_⟩
  rw [h]
  split_ifs <;>
    simp [ErrMultipleOneOf, ErrMissingOneOf, ErrInvalidKeyName]

/-- C5: a Target with exactly one of the two references set, whose set
reference passes the qualified-name check, whose weight is within [0,100]
and whose URL is empty, validates with no error. -/
theorem C5_valid_target_absent (iqn : String → List String) (tt : TrafficTarget)
    (hone : (tt.revisionName ≠ "" ∧ tt.configurationName = "") ∨
            (tt.revisionName = "" ∧ tt.configurationName ≠ ""))
    (hrev : tt.revisionName ≠ "" → iqn tt.revisionName = [])
    (hcfg : tt.configurationName ≠ "" → iqn tt.configurationName = [])
    (hlo : 0 ≤ tt.percent) (hhi : tt.percent ≤ 100) (hurl : tt.url = "") :
    TrafficTarget.Validate iqn tt = [] := by
  rcases hone with ⟨h1, h2⟩ | ⟨h1, h2⟩ <;>
    simp [TrafficTarget.Validate, h1, h2, hurl, hrev, hcfg, not_lt.mpr hlo, not_lt.mpr hhi]

/-- C6: the three rules of the Target Validator are merged, not
short-circuited: a Target with both references set, weight out of bounds
and a non-empty URL yields all three findings together. -/
theorem C6_findings_merged (iqn : String → List String) (tt : TrafficTarget)
    (h1 : tt.revisionName ≠ "") (h2 : tt.configurationName ≠ "")
    (h3 : tt.percent < 0 ∨ tt.percent > 100) (h4 : tt.url ≠ "") :
    TrafficTarget.Validate iqn tt =
      ErrMultipleOneOf "revisionName" "configurationName" ++
      ErrOutOfBoundsValue tt.percent 0 100 "percent" ++
      ErrDisallowedFields "url" := by
  simp [TrafficTarget.Validate, h1, h2, h3, h4]

/-- C7: the Target Validator produces an OutOfBoundsValue finding, scoped to
the field path percent and carrying the bounds 0 and 100 and the offending
weight in its message, exactly when the weight is outside [0,100], and it
is the only such finding. -/
theorem C7_weight_bounds (iqn : String → List String) (tt : TrafficTarget) :
    (TrafficTarget.Validate iqn tt).filter isOobKind =
      (if tt.percent < 0 ∨ tt.percent > 100 then
        ErrOutOfBoundsValue tt.percent 0 100 "percent"
      else []) := by
  simp only [TrafficTarget.Validate]
  split_ifs <;>
    simp_all [List.filter_append, isOobKind, ErrMultipleOneOf, ErrMissingOneOf,
      ErrInvalidKeyName, ErrOutOfBoundsValue, ErrDisallowedFields, List.filter]

/-- C8: the Target Validator produces a DisallowedFields finding, scoped to
the field path url, exactly when the URL field is non-empty, and it is the
only such finding. -/
theorem C8_url_disallowed (iqn : String → List String) (tt : TrafficTarget) :
    (TrafficTarget.Validate iqn tt).filter isDisKind =
      (if tt.url ≠ "" then ErrDisallowedFields "url" else []) := by
  simp only [TrafficTarget.Validate]
  split_ifs <;>
    simp_all [List.filter_append, isDisKind, ErrMultipleOneOf, ErrMissingOneOf,
      ErrInvalidKeyName, ErrOutOfBoundsValue, ErrDisallowedFields, List.filter]

/-! Claims about the Spec Validator and Resource Validator. -/

/-- C4: a structurally empty Spec yields a single MissingField error at the
current path and nothing else runs; through the Resource Validator the
error surfaces at path spec. -/
theorem C4_empty_spec (vmeta : FieldError) (iqn : String → List String)
    (cd : Int → FieldError) (r : Route) (h : r.spec = zeroRouteSpec) :
    RouteSpec.Validate iqn cd r.spec = ErrMissingField "" ∧
    Route.Validate vmeta iqn cd r =
      viaField "metadata" vmeta ++
        [⟨ErrKind.MissingField, "missing field(s)", ["spec"], []⟩] := by
  constructor
  · simp [RouteSpec.Validate, h]
  · simp [Route.Validate, RouteSpec.Validate, h, viaField, ErrMissingField, joinPath]

/-- C4 witness: the zero Spec inside a Route, with absent metadata errors. -/
theorem C4_empty_spec_witness :
    RouteSpec.Validate (fun _ => []) (fun _ => []) (Route.mk ⟨0, []⟩).spec = ErrMissingField "" ∧
    Route.Validate [] (fun _ => []) (fun _ => []) (Route.mk ⟨0, []⟩) =
      viaField "metadata" [] ++
        [⟨ErrKind.MissingField, "missing field(s)", ["spec"], []⟩] :=
  C4_empty_spec [] (fun _ => []) (fun _ => []) ⟨⟨0, []⟩⟩ rfl

/-- C9: a Spec that is not the zero Spec but has no targets skips the
missing-field sentinel, traverses nothing, and reports the sum-mismatch
error with actual total 0 at path traffic, after the deprecated-field
check result. -/
theorem C9_no_targets_sum_zero (iqn : String → List String) (cd : Int → FieldError)
    (rs : RouteSpec) (h0 : rs ≠ zeroRouteSpec) (ht : rs.traffic = []) :
    RouteSpec.Validate iqn cd rs = cd rs.deprecatedGeneration ++ sumErr 0 := by
  simp [RouteSpec.Validate, h0, ht, routeLoop]

/-- C9 witness: only the deprecated generation field set. -/
theorem C9_no_targets_sum_zero_witness :
    RouteSpec.Validate (fun _ => []) (fun _ => []) (RouteSpec.mk 1 []) = [] ++ sumErr 0 :=
  C9_no_targets_sum_zero (fun _ => []) (fun _ => []) ⟨1, []⟩ (by decide) rfl

/-- C10: weights individually out of range still count toward the running
total as given: weights 150 and -50 sum to 100, so the result is exactly
the two OutOfBoundsValue findings and no sum-mismatch finding. -/
theorem C10_out_of_range_weights_sum :
    RouteSpec.Validate (fun _ => []) (fun _ => [])
        (RouteSpec.mk 0 [⟨"", "r", "", 150, ""⟩, ⟨"", "s", "", -50, ""⟩]) =
      [⟨ErrKind.OutOfBoundsValue, "expected 0 <= 150 <= 100", ["traffic[0].percent"], []⟩,
       ⟨ErrKind.OutOfBoundsValue, "expected 0 <= -50 <= 100", ["traffic[1].percent"], []⟩] := by
  decide

lemma mem_viaField {p : String} {e : FieldError} {f : Finding} (hf : f ∈ viaField p e) :
    ∃ g ∈ e, f.kind = g.kind ∧ f.message = g.message := by
  simp only [viaField, List.mem_map] at hf
  obtain ⟨g, hg, rfl⟩ := hf
  exact ⟨g, hg, rfl, rfl⟩

lemma loopErrs_kind (iqn : String → List String) :
    ∀ (ts : List TrafficTarget) (i : Nat) (m : List (String × Nat)),
      ∀ f ∈ loopErrs iqn i m ts,
        f.kind ≠ ErrKind.SumMismatch ∧ f.kind ≠ ErrKind.MissingField := by
  intro ts
  induction ts with
  | nil => intro i m f hf; simp [loopErrs] at hf
  | cons tt rest ih =>
    intro i m f hf
    simp only [loopErrs, List.mem_append] at hf
    rcases hf with hf | hf
    · obtain ⟨g, hg, hk, _⟩ := mem_viaField hf
      have hgk := mem_validate_kind iqn tt g hg
      rw [hk]
      rcases hgk with h | h | h | h | h <;> simp [h]
    · by_cases hname : tt.name = ""
      · rw [if_pos hname] at hf
        exact ih (i + 1) m f hf
      · rw [if_neg hname] at hf
        cases hl : lookupName m tt.name with
        | none =>
          rw [hl] at hf
          exact ih (i + 1) (m ++ [(tt.name, i)]) f hf
        | some ent =>
          rw [hl] at hf
          simp only [dupErr, List.mem_append, List.mem_singleton] at hf
          rcases hf with rfl | hf
          · simp [dupFinding]
          · exact ih (i + 1) m f hf

lemma isSumKind_false {f : Finding} (h : f.kind ≠ ErrKind.SumMismatch) :
    isSumKind f = false := by
  obtain ⟨k, msg, p, d⟩ := f
  cases k <;> simp_all [isSumKind]

lemma filter_isSumKind_nil {e : FieldError}
    (h : ∀ f ∈ e, f.kind ≠ ErrKind.SumMismatch) : e.filter isSumKind = [] := by
  induction e with
  | nil => rfl
  | cons a rest ih =>
    have ha := h a (List.mem_cons_self a rest)
    rw [List.filter_cons, isSumKind_false ha]
    exact ih fun f hf => h f (List.mem_cons_of_mem a hf)

/-- C1: for a Spec with at least one target, the result carries no
SumMismatch finding exactly when the weights sum to 100; otherwise the
single sum-mismatch finding, with the actual and expected totals in its
message, at path traffic. -/
theorem C1_sum_mismatch (iqn : String → List String) (cd : Int → FieldError)
    (rs : RouteSpec) (h1 : rs.traffic ≠ [])
    (hcd : ∀ f ∈ cd rs.deprecatedGeneration, f.kind ≠ ErrKind.SumMismatch) :
    (RouteSpec.Validate iqn cd rs).filter isSumKind =
      (if sumPercents rs.traffic = 100 then [] else sumErr (sumPercents rs.traffic)) := by
  have hz : rs ≠ zeroRouteSpec := by
    intro h
    rw [h] at h1
    exact h1 rfl
  have hcdf : (cd rs.deprecatedGeneration).filter isSumKind = [] := filter_isSumKind_nil hcd
  have hloopf : (loopErrs iqn 0 [] rs.traffic).filter isSumKind = [] :=
    filter_isSumKind_nil fun f hf => (loopErrs_kind iqn rs.traffic 0 [] f hf).1
  simp only [RouteSpec.Validate, if_neg hz]
  rw [routeLoop_eq]
  by_cases hs : sumPercents rs.traffic = 100
  · simp [hs, List.filter_append, hcdf, hloopf]
  · simp [hs, List.filter_append, hcdf, hloopf, sumErr, isSumKind, List.filter]

/-- C1 witness: a single target of weight 100 yields no SumMismatch finding. -/
theorem C1_sum_mismatch_witness :
    (RouteSpec.Validate (fun _ => []) (fun _ => [])
        (RouteSpec.mk 0 [⟨"", "r", "", 100, ""⟩])).filter isSumKind =
      (if sumPercents [(⟨"", "r", "", 100, ""⟩ : TrafficTarget)] = 100 then []
       else sumErr (sumPercents [(⟨"", "r", "", 100, ""⟩ : TrafficTarget)])) :=
  C1_sum_mismatch (fun _ => []) (fun _ => []) ⟨0, [⟨"", "r", "", 100, ""⟩]⟩
    (by decide) (by intro f hf; simp at hf)

/-! Duplicate-name bookkeeping for C2. -/

lemma string_data_append (a b : String) : (a ++ b).data = a.data ++ b.data := by
  cases a; cases b; rfl

lemma string_data_inj {a b : String} (h : a.data = b.data) : a = b := by
  cases a
  cases b
  exact congrArg String.mk h

lemma dupMsg_inj {a b : String} (h : dupMsg a = dupMsg b) : a = b := by
  have hd := congrArg String.data h
  simp only [dupMsg, quoteStr, string_data_append] at hd
  have h1 := List.append_cancel_left hd
  have h2 := List.append_cancel_right h1
  have h3 := List.append_cancel_left h2
  exact string_data_inj h3

lemma filter_false_nil {p : Finding → Bool} {e : FieldError}
    (h : ∀ f ∈ e, p f = false) : e.filter p = [] := by
  induction e with
  | nil => rfl
  | cons a rest ih =>
    have ha := h a (List.mem_cons_self a rest)
    simp only [List.filter_cons, ha, Bool.false_eq_true, if_false]
    exact ih fun f hf => h f (List.mem_cons_of_mem a hf)

lemma isDupFor_false_kind {n : String} {f : Finding}
    (h : f.kind ≠ ErrKind.DuplicateDefinition) : isDupFor n f = false := by
  obtain ⟨k, msg, p, d⟩ := f
  cases k <;> simp_all [isDupFor]

lemma isDupFor_dupFinding_self (n : String) (j i : Nat) :
    isDupFor n (dupFinding n j i) = true := by
  simp [isDupFor, dupFinding]

lemma isDupFor_dupFinding_ne {a n : String} (h : a ≠ n) (j i : Nat) :
    isDupFor n (dupFinding a j i) = false := by
  simp only [isDupFor, dupFinding, decide_eq_false_iff_not]
  intro hmsg
  exact h (dupMsg_inj hmsg)

lemma lookupName_append_ne {k n : String} (h : k ≠ n) (v : Nat) :
    ∀ m : List (String × Nat), lookupName (m ++ [(k, v)]) n = lookupName m n := by
  intro m
  induction m with
  | nil => simp [lookupName, h]
  | cons a rest ih =>
    obtain ⟨ak, av⟩ := a
    by_cases hak : ak = n <;> simp [lookupName, hak, ih]

lemma lookupName_append_self {n : String} (v : Nat) :
    ∀ m : List (String × Nat), lookupName m n = none →
      lookupName (m ++ [(n, v)]) n = some v := by
  intro m
  induction m with
  | nil => intro _; simp [lookupName]
  | cons a rest ih =>
    obtain ⟨ak, av⟩ := a
    intro h
    by_cases hak : ak = n
    · simp [lookupName, hak] at h
    · simp only [List.cons_append, lookupName, hak, if_false] at h ⊢
      exact ih h

/-- The duplicate-definition findings the traversal emits for name `n`,
starting at index `i` with map `m`: one per occurrence of `n` after its
first-seen index. -/
def expectedDups (n : String) (i : Nat) (m : List (String × Nat))
    (ts : List TrafficTarget) : List Finding :=
  match lookupName m n with
  | some j => (occsFrom n i ts).map (dupFinding n j)
  | none =>
    match occsFrom n i ts with
    | [] => []
    | j :: later => later.map (dupFinding n j)

lemma loopErrs_cons_blank (iqn : String → List String) (i : Nat)
    (m : List (String × Nat)) (tt : TrafficTarget) (rest : List TrafficTarget)
    (h : tt.name = "") :
    loopErrs iqn i m (tt :: rest) =
      viaField (trafficIdx i) (TrafficTarget.Validate iqn tt) ++
        loopErrs iqn (i + 1) m rest := by
  simp [loopErrs, h]

lemma loopErrs_cons_new (iqn : String → List String) (i : Nat)
    (m : List (String × Nat)) (tt : TrafficTarget) (rest : List TrafficTarget)
    (h : tt.name ≠ "") (hl : lookupName m tt.name = none) :
    loopErrs iqn i m (tt :: rest) =
      viaField (trafficIdx i) (TrafficTarget.Validate iqn tt) ++
        loopErrs iqn (i + 1) (m ++ [(tt.name, i)]) rest := by
  simp [loopErrs, h, hl]

lemma loopErrs_cons_dup (iqn : String → List String) (i : Nat)
    (m : List (String × Nat)) (tt : TrafficTarget) (rest : List TrafficTarget)
    (ent : Nat) (h : tt.name ≠ "") (hl : lookupName m tt.name = some ent) :
    loopErrs iqn i m (tt :: rest) =
      viaField (trafficIdx i) (TrafficTarget.Validate iqn tt) ++
        (dupErr tt.name ent i ++ loopErrs iqn (i + 1) m rest) := by
  simp [loopErrs, h, hl]

lemma occsFrom_cons_eq {n : String} {tt : TrafficTarget} (i : Nat)
    (rest : List TrafficTarget) (h : tt.name = n) :
    occsFrom n i (tt :: rest) = i :: occsFrom n (i + 1) rest := by
  simp [occsFrom, h]

lemma occsFrom_cons_ne {n : String} {tt : TrafficTarget} (i : Nat)
    (rest : List TrafficTarget) (h : tt.name ≠ n) :
    occsFrom n i (tt :: rest) = occsFrom n (i + 1) rest := by
  simp [occsFrom, h]

lemma loopErrs_dups (iqn : String → List String) {n : String} (hn : n ≠ "") :
    ∀ (ts : List TrafficTarget) (i : Nat) (m : List (String × Nat)),
      (loopErrs iqn i m ts).filter (isDupFor n) = expectedDups n i m ts := by
  intro ts
  induction ts with
  | nil =>
    intro i m
    cases hl : lookupName m n <;> simp [loopErrs, occsFrom, expectedDups, hl]
  | cons tt rest ih =>
    intro i m
    have hvia : (viaField (trafficIdx i) (TrafficTarget.Validate iqn tt)).filter (isDupFor n) = [] := by
      apply filter_false_nil
      intro f hf
      obtain ⟨g, hg, hk, _⟩ := mem_viaField hf
      apply isDupFor_false_kind
      rw [hk]
      rcases mem_validate_kind iqn tt g hg with h | h | h | h | h <;> simp [h]
    by_cases hname : tt.name = ""
    · have htn : tt.name ≠ n := by
        rw [hname]
        exact Ne.symm hn
      rw [loopErrs_cons_blank iqn i m tt rest hname, List.filter_append, hvia,
        List.nil_append, ih (i + 1) m]
      simp only [expectedDups, occsFrom_cons_ne i rest htn]
    · cases hl : lookupName m tt.name with
      | none =>
        rw [loopErrs_cons_new iqn i m tt rest hname hl, List.filter_append, hvia,
          List.nil_append, ih (i + 1) (m ++ [(tt.name, i)])]
        by_cases htn : tt.name = n
        · subst htn
          simp only [expectedDups, lookupName_append_self i m hl, hl,
            occsFrom_cons_eq i rest rfl]
        · simp only [expectedDups, lookupName_append_ne (fun h => htn h) i m,
            occsFrom_cons_ne i rest htn]
      | some ent =>
        rw [loopErrs_cons_dup iqn i m tt rest ent hname hl, List.filter_append, hvia,
          List.nil_append, List.filter_append, ih (i + 1) m]
        by_cases htn : tt.name = n
        · subst htn
          simp only [expectedDups, hl, dupErr, List.filter_cons,
            isDupFor_dupFinding_self, if_true, List.filter_nil,
            occsFrom_cons_eq i rest rfl, List.map_cons, List.singleton_append]
        · simp only [expectedDups, dupErr, List.filter_cons,
            isDupFor_dupFinding_ne htn ent i, Bool.false_eq_true, if_false,
            List.filter_nil, List.nil_append, occsFrom_cons_ne i rest htn]

/-- C2: when a non-empty name occurs at indices j, i1, ..., i(N-1) of the
traffic list, the Spec Validator result carries exactly N-1
DuplicateDefinition findings naming it, one per later repeat i, each with
exactly the paths traffic[j].name and traffic[i].name where j is the first
occurrence; empty names never participate. -/
theorem C2_duplicate_names (iqn : String → List String) (cd : Int → FieldError)
    (rs : RouteSpec) (n : String) (j : Nat) (is : List Nat) (hn : n ≠ "")
    (hcd : ∀ f ∈ cd rs.deprecatedGeneration, f.kind ≠ ErrKind.DuplicateDefinition)
    (hocc : occsFrom n 0 rs.traffic = j :: is) (h2 : is ≠ []) :
    (RouteSpec.Validate iqn cd rs).filter (isDupFor n) = is.map (dupFinding n j) := by
  have htr : rs.traffic ≠ [] := by
    intro h
    rw [h] at hocc
    simp [occsFrom] at hocc
  have hz : rs ≠ zeroRouteSpec := by
    intro h
    rw [h] at htr
    exact htr rfl
  have hcdf : (cd rs.deprecatedGeneration).filter (isDupFor n) = [] :=
    filter_false_nil fun f hf => isDupFor_false_kind (hcd f hf)
  have hloop : (loopErrs iqn 0 [] rs.traffic).filter (isDupFor n) = is.map (dupFinding n j) := by
    rw [loopErrs_dups iqn hn rs.traffic 0 []]
    simp [expectedDups, lookupName, hocc]
  have hsum : ∀ s : Int, (sumErr s).filter (isDupFor n) = [] := by
    intro s
    simp [sumErr, isDupFor, List.filter]
  simp only [RouteSpec.Validate, if_neg hz]
  rw [routeLoop_eq]
  by_cases hs : sumPercents rs.traffic = 100
  · simp [hs, List.filter_append, hcdf, hloop]
  · simp [hs, List.filter_append, hcdf, hloop, hsum]

/-- C2 witness: two targets named a at indices 0 and 1 yield exactly one
DuplicateDefinition finding with paths traffic[0].name and traffic[1].name. -/
theorem C2_duplicate_names_witness :
    (RouteSpec.Validate (fun _ => []) (fun _ => [])
        (RouteSpec.mk 0 [⟨"a", "r", "", 50, ""⟩, ⟨"a", "r", "", 50, ""⟩])).filter (isDupFor "a") =
      [1].map (dupFinding "a" 0) :=
  C2_duplicate_names (fun _ => []) (fun _ => [])
    ⟨0, [⟨"a", "r", "", 50, ""⟩, ⟨"a", "r", "", 50, ""⟩]⟩ "a" 0 [1]
    (by decide) (by intro f hf; simp at hf) (by decide) (by decide)

/-- C5 witness: a concrete valid target. -/
theorem C5_valid_target_absent_witness :
    TrafficTarget.Validate (fun _ => []) ⟨"", "rev", "", 50, ""⟩ = [] :=
  C5_valid_target_absent (fun _ => []) ⟨"", "rev", "", 50, ""⟩
    (Or.inl ⟨by decide, rfl⟩) (fun _ => rfl) (fun h => absurd rfl h)
    (by decide) (by decide) rfl

/-- C6 witness: a target violating all three rules at once. -/
theorem C6_findings_merged_witness :
    TrafficTarget.Validate (fun _ => []) ⟨"", "r", "c", 150, "x"⟩ =
      ErrMultipleOneOf "revisionName" "configurationName" ++
      ErrOutOfBoundsValue 150 0 100 "percent" ++
      ErrDisallowedFields "url" :=
  C6_findings_merged (fun _ => []) ⟨"", "r", "c", 150, "x"⟩ (by decide) (by decide)
    (Or.inr (by decide)) (by decide)
